import Mathlib

set_option maxRecDepth 100000

/-!
A verification development for the incremental Reddit ingestion and
filtering pipeline (`lambda_reddit_ingest/main.py`).

The Python source is shallowly embedded: pure computations become Lean
functions, the per-run orchestration loop becomes explicit state passing
over a `RunAcc` accumulator, timestamps (Python floats holding epoch
seconds) become rationals, and the external world (Reddit feed contents,
Bedrock responses, S3 write success) is supplied as explicit inputs.
External-library internals that no verified property depends on (the MD5
content fingerprint, wall-clock batch key naming) are not modelled; items
are taken as already-fetched plain values, so per-item fetch faults of the
Reddit client do not arise in the model.
-/

/-- Python `needle.startswith` over character lists: `startsWithL n h`
is true when `n` is an initial segment of `h`. -/
def startsWithL : List Char → List Char → Bool
  | [], _ => true
  | _ :: _, [] => false
  | a :: as, b :: bs => a == b && startsWithL as bs

/-- Python's substring operator `needle in haystack` over character
lists: true when `n` occurs contiguously inside `h` (the empty needle
occurs in every string). -/
def containsL (n : List Char) : List Char → Bool
  | [] => n.isEmpty
  | b :: bs => startsWithL n (b :: bs) || containsL n bs

/-- Python's `needle in haystack` on strings. -/
def containsStr (needle haystack : String) : Bool :=
  containsL needle.data haystack.data

/-- Python `str.lower()` (ASCII case folding, which is all the source
feeds it). -/
def pyLower (s : String) : String := String.mk (s.data.map Char.toLower)

/-- Python `str.upper()` (ASCII case folding). -/
def pyUpper (s : String) : String := String.mk (s.data.map Char.toUpper)

/-- Python slicing `s[:n]`. -/
def pyTake (s : String) (n : Nat) : String := String.mk (s.data.take n)

/-- Python `min(a, b)` on two numbers (returns the first argument on
ties, which coincides with `min` on `ℚ`). -/
def pyMin (a b : ℚ) : ℚ := if a ≤ b then a else b

/-- Python truthiness of the optional watermark float: `None` and `0.0`
are falsy, every other value truthy (`if last_timestamp and ...`). -/
def pyTruthy : Option ℚ → Bool
  | none => false
  | some x => decide (x ≠ 0)

/-- `float(2 ** attempt)`: the integer power computed by the backoff
formula, as a rational. -/
def pow2 (k : Nat) : ℚ := ((2 ^ k : ℕ) : ℚ)

/-- Execution trace of one `retry_with_backoff`-wrapped call: the final
result, the 0-based attempt indices that were executed in order, and the
sleep durations performed between attempts. -/
structure RetryTrace (E A : Type) where
  result : Except E A
  tried : List Nat
  sleeps : List ℚ
deriving Repr

/-- The loop body of `retry_with_backoff`'s `wrapper` (main.py lines
34-51), with the remaining-retries budget made an explicit `fuel`
argument: `fuel = max_retries - attempt`.  On success the result is
returned at once; on failure with budget left the wrapper sleeps
`min(base_delay * 2 ** attempt, max_delay)` and retries; on failure with
no budget the last exception is re-raised. -/
def retryGo {E A : Type} (op : Nat → Except E A) (base_delay max_delay : ℚ)
    (attempt : Nat) : Nat → RetryTrace E A
  | 0 =>
    match op attempt with
    | .ok x => ⟨.ok x, [attempt], []⟩
    | .error e => ⟨.error e, [attempt], []⟩
  | fuel + 1 =>
    match op attempt with
    | .ok x => ⟨.ok x, [attempt], []⟩
    | .error _ =>
      let rest := retryGo op base_delay max_delay (attempt + 1) fuel
      ⟨rest.result, attempt :: rest.tried,
        pyMin (base_delay * pow2 attempt) max_delay :: rest.sleeps⟩

/-- `retry_with_backoff(max_retries, base_delay, max_delay)` applied to a
fallible operation; `op k` is the outcome of the `k`-th execution of the
wrapped function. -/
def retry_with_backoff {E A : Type} (max_retries : Nat) (base_delay max_delay : ℚ)
    (op : Nat → Except E A) : RetryTrace E A :=
  retryGo op base_delay max_delay 0 max_retries

example : containsStr "RELEVANT" "IRRELEVANT" = true := by decide
example : containsStr "abc" "xxabd" = false := by decide
example : pyUpper "irrelevant" = "IRRELEVANT" := by decide
example : pyTruthy (some 10) = true := by decide
example : pyTruthy (some 0) = false := by decide
example :
    (retry_with_backoff 3 2 30 (fun _ => (Except.error "boom" : Except String Nat))).tried
      = [0, 1, 2, 3] := by decide
example :
    (retry_with_backoff 3 2 30 (fun _ => (Except.error "boom" : Except String Nat))).sleeps
      = [pyMin (2 * pow2 0) 30, pyMin (2 * pow2 1) 30, pyMin (2 * pow2 2) 30] := rfl
example :
    (retry_with_backoff 2 1 60 (fun k => if k = 1 then (Except.ok 7 : Except String Nat)
      else Except.error "e")).tried = [0, 1] := by decide

/-- A fetched Reddit submission, with the fields `lambda_handler` reads
and the comment forest that `post.comments.list()` would return for it. -/
structure Comment where
  id : String
  body : String
  permalink : String
  created_utc : ℚ
  score : Int
deriving Repr, DecidableEq

/-- A fetched Reddit post (praw `Submission`), as consumed by the
ingestion loop. -/
structure Post where
  id : String
  title : String
  selftext : String
  url : String
  created_utc : ℚ
  score : Int
  num_comments : Nat
  comments : List Comment
deriving Repr, DecidableEq

/-- Configuration of one run: the environment variables read by the
module plus the `KEYWORDS` list read inside `lambda_handler`, and the
availability of the lazily-initialized Bedrock client. -/
structure Cfg where
  keywords : List String
  ignoreKeywords : List String
  minPostScore : Int
  minPostLength : Nat
  minCommentScore : Int
  minCommentLength : Nat
  postLimit : Nat
  enableAiCheck : Bool
  bedrockAvailable : Bool
deriving Repr, DecidableEq

/-- The Python-visible outcome of `json.loads(content.strip())` followed
by the `.get('decision', '').upper()` access: the text failed to parse,
parsed to a non-dict value (whose `.get` raises an `AttributeError` that
escapes to the generic handler), or parsed to a dict whose `'decision'`
key holds the given string, if present. -/
inductive JsonParse
  | parseError
  | nonDict
  | dict (decision : Option String)
deriving Repr, DecidableEq

/-- What the external world did for one `invoke_model` round trip inside
`is_post_relevant_by_ai`: either some step raised an exception with the
given message (`str(e)`), or the response carried no content block, or it
carried a text block together with how `json.loads` treats that text. -/
inductive BedrockResult
  | raised (msg : String)
  | emptyContent
  | content (text : String) (parsed : JsonParse)
deriving Repr, DecidableEq

/-- The `except Exception` classification at main.py lines 197-212:
access-denied and validation errors reject, throttling and unrecognized
errors accept (fail-open). -/
def classifyBedrockError (msg : String) : Bool :=
  if containsStr "You don\x27t have access to the model" msg then false
  else if containsStr "ThrottlingException" msg || containsStr "Too many requests" msg then true
  else if containsStr "ValidationException" msg then false
  else true

/-- Response-interpretation branch of `is_post_relevant_by_ai` (lines
183-195): parsed JSON is consulted for `decision == 'RELEVANT'`; on a
parse failure the decision is a case-insensitive substring search for
`'RELEVANT'`; a non-dict parse raises and lands in the fail-open branch
of the generic exception handler. -/
def interpretContent (text : String) : JsonParse → Bool
  | .parseError => containsStr "RELEVANT" (pyUpper text)
  | .nonDict => true
  | .dict d => pyUpper (d.getD "") == "RELEVANT"

/-- One execution of the body of `is_post_relevant_by_ai` (lines
118-212), given what the external call did.  Returns the decision and
the number of relevance-service invocations this execution performed.
The body catches every exception raised at or after `invoke_model`, so
it always returns normally. -/
def aiBody (bedrockPresent : Bool) (p : Post) (result : BedrockResult) : Bool × Nat :=
  if !bedrockPresent then (false, 0)
  else if (p.title ++ p.selftext).length < 50 then (false, 0)
  else match result with
    | .raised msg => (classifyBedrockError msg, 1)
    | .emptyContent => (false, 1)
    | .content text parsed => (interpretContent text parsed, 1)

/-- The `@retry_with_backoff(max_retries=3, base_delay=2.0,
max_delay=30.0)`-decorated call of `is_post_relevant_by_ai`; `outcomes k`
is what the external world would do on the `k`-th execution of the body.
Since the body never raises, the wrapper sees a normal return. -/
def relevanceTrace (bedrockPresent : Bool) (p : Post) (outcomes : Nat → BedrockResult) :
    RetryTrace String (Bool × Nat) :=
  retry_with_backoff 3 2 30 (fun k => Except.ok (aiBody bedrockPresent p (outcomes k)))

/-- The decision returned by the decorated `is_post_relevant_by_ai`. -/
def is_post_relevant_by_ai (bedrockPresent : Bool) (p : Post)
    (outcomes : Nat → BedrockResult) : Bool :=
  match (relevanceTrace bedrockPresent p outcomes).result with
  | .ok (b, _) => b
  | .error _ => false

/-- How many times the decorated call executed the wrapped body. -/
def relevanceAttempts (bedrockPresent : Bool) (p : Post)
    (outcomes : Nat → BedrockResult) : Nat :=
  (relevanceTrace bedrockPresent p outcomes).tried.length

/-- Total `invoke_model` calls performed across all executed attempts of
the decorated call. -/
def relevanceServiceCalls (bedrockPresent : Bool) (p : Post)
    (outcomes : Nat → BedrockResult) : Nat :=
  ((relevanceTrace bedrockPresent p outcomes).tried.map
    (fun k => (aiBody bedrockPresent p (outcomes k)).2)).sum

example :
    is_post_relevant_by_ai true
      ⟨"a", "AAPL earnings discussion thread for the quarter over there",
        "some body text", "u", 20, 50, 0, []⟩
      (fun _ => .raised "ThrottlingException: rate exceeded") = true := by decide

/-- Rejection stages of the per-post filter cascade, in source order. -/
inductive Stage
  | watermark
  | keyword
  | ignoreKw
  | score
  | length
  | ai
deriving Repr, DecidableEq

/-- One element appended to `processed_data`: the post dict built at
lines 323-334 or the comment dict built at lines 355-365 (minus the MD5
`content_hash`, which no verified property reads). -/
inductive BatchItem
  | postItem (id title selftext url subreddit : String) (created_utc : ℚ)
      (score : Int) (num_comments : Nat)
  | commentItem (id post_id body url subreddit : String) (created_utc : ℚ)
      (score : Int)
deriving Repr, DecidableEq

/-- `validate_post_data`: checks the required keys exist in the dict;
both dict shapes built by the handler carry all required keys, so in the
embedding this is constantly true. -/
def validate_post_data (_ : BatchItem) : Bool := true

/-- `sanitize_post_data`: truncates `title` to 500, `selftext` to 10000
and `body` to 5000 characters. -/
def sanitize_post_data : BatchItem → BatchItem
  | .postItem i t s u sub c sc nc => .postItem i (pyTake t 500) (pyTake s 10000) u sub c sc nc
  | .commentItem i pid b u sub c sc => .commentItem i pid (pyTake b 5000) u sub c sc

/-- `post_text = (post.title + " " + post.selftext).lower()`. -/
def postText (p : Post) : String := pyLower (p.title ++ " " ++ p.selftext)

/-- The watermark stage: `last_timestamp and post.created_utc <
last_timestamp` (line 275).  True means the post is skipped. -/
def watermarkSkips (wm : Option ℚ) (p : Post) : Bool :=
  pyTruthy wm && decide (p.created_utc < wm.getD 0)

/-- `any(keyword.lower() in post_text for keyword in KEYWORDS)`. -/
def hasKeywords (cfg : Cfg) (p : Post) : Bool :=
  cfg.keywords.any fun k => containsStr (pyLower k) (postText p)

/-- `any(ikw.lower() in post_text for ikw in IGNORE_KEYWORDS if ikw)`. -/
def hasIgnoreKeywords (cfg : Cfg) (p : Post) : Bool :=
  cfg.ignoreKeywords.any fun k => !(k == "") && containsStr (pyLower k) (postText p)

/-- The raw post dict of lines 323-334. -/
def rawPostItem (sub : String) (p : Post) : BatchItem :=
  .postItem p.id p.title p.selftext p.url sub p.created_utc p.score p.num_comments

/-- The raw comment dict of lines 355-365. -/
def rawCommentItem (sub : String) (postId : String) (c : Comment) : BatchItem :=
  .commentItem c.id postId c.body c.permalink sub c.created_utc c.score

/-- The comment sub-cascade of lines 348-371: score threshold, length
threshold, validate, sanitize, append. -/
def acceptedComments (cfg : Cfg) (sub : String) (p : Post) : List BatchItem :=
  ((p.comments.filter fun c =>
      !decide (c.score < cfg.minCommentScore)
        && !decide (c.body.length < cfg.minCommentLength)).filter
    fun c => validate_post_data (rawCommentItem sub p.id c)).map
    fun c => sanitize_post_data (rawCommentItem sub p.id c)

/-- Result of running the loop body of lines 271-381 on one post:
whether the post survived the watermark stage (and hence bumped
`newest_timestamp`), the items it appended to `processed_data`, the
stage that rejected it (if any), and the relevance-service calls it
triggered. -/
structure PostStepResult where
  passedWatermark : Bool
  items : List BatchItem
  rejectStage : Option Stage
  serviceCalls : Nat
deriving Repr, DecidableEq

/-- The per-post filter cascade (lines 275-340): watermark, keyword,
ignore-keyword, score, length, AI relevance, then validate + sanitize +
append of the post and its surviving comments.  When the AI check is
enabled but the Bedrock client is unavailable the source only logs a
warning and falls through to acceptance. -/
def processPost (cfg : Cfg) (wm : Option ℚ) (outcomes : Nat → BedrockResult)
    (sub : String) (p : Post) : PostStepResult :=
  if watermarkSkips wm p then ⟨false, [], some .watermark, 0⟩
  else if !hasKeywords cfg p then ⟨true, [], some .keyword, 0⟩
  else if hasIgnoreKeywords cfg p then ⟨true, [], some .ignoreKw, 0⟩
  else if p.score < cfg.minPostScore then ⟨true, [], some .score, 0⟩
  else if p.selftext.length < cfg.minPostLength then ⟨true, [], some .length, 0⟩
  else if cfg.enableAiCheck && cfg.bedrockAvailable then
    if is_post_relevant_by_ai cfg.bedrockAvailable p outcomes then
      if validate_post_data (rawPostItem sub p) then
        ⟨true, sanitize_post_data (rawPostItem sub p) :: acceptedComments cfg sub p,
          none, relevanceServiceCalls cfg.bedrockAvailable p outcomes⟩
      else ⟨true, [], none, relevanceServiceCalls cfg.bedrockAvailable p outcomes⟩
    else ⟨true, [], some .ai, relevanceServiceCalls cfg.bedrockAvailable p outcomes⟩
  else
    if validate_post_data (rawPostItem sub p) then
      ⟨true, sanitize_post_data (rawPostItem sub p) :: acceptedComments cfg sub p, none, 0⟩
    else ⟨true, [], none, 0⟩

/-- Loop accumulator of `lambda_handler`: `processed_data` and
`newest_timestamp` (initialized to `[]` and `0`). -/
structure RunAcc where
  processed : List BatchItem
  newest : ℚ
deriving Repr, DecidableEq

/-- Effect of one loop iteration on the accumulator: the post's items
are appended to `processed_data`, and `newest_timestamp` is bumped
(line 280) whenever the post passed the watermark check — including
posts later rejected by the keyword or other stages. -/
def stepAcc (cfg : Cfg) (wm : Option ℚ) (outcomes : Post → Nat → BedrockResult)
    (sub : String) (p : Post) (acc : RunAcc) : RunAcc :=
  ⟨acc.processed ++ (processPost cfg wm (outcomes p) sub p).items,
    if (processPost cfg wm (outcomes p) sub p).passedWatermark
    then max acc.newest p.created_utc else acc.newest⟩

/-- The inner post loop over one subreddit (lines 271-383): each post is
processed, `newest_timestamp` is bumped for every post past the
watermark, and the loop breaks once an accepted post pushes
`processed_data` to the run-wide cap. -/
def scanPosts (cfg : Cfg) (wm : Option ℚ) (outcomes : Post → Nat → BedrockResult)
    (sub : String) : List Post → RunAcc → RunAcc
  | [], acc => acc
  | p :: ps, acc =>
    match (processPost cfg wm (outcomes p) sub p).rejectStage with
    | some _ => scanPosts cfg wm outcomes sub ps (stepAcc cfg wm outcomes sub p acc)
    | none =>
      if cfg.postLimit ≤ (stepAcc cfg wm outcomes sub p acc).processed.length
      then stepAcc cfg wm outcomes sub p acc
      else scanPosts cfg wm outcomes sub ps (stepAcc cfg wm outcomes sub p acc)

/-- The outer subreddit loop (lines 258-399): scans each community in
turn and stops once the run-wide cap is reached. -/
def scanSubs (cfg : Cfg) (wm : Option ℚ) (outcomes : Post → Nat → BedrockResult) :
    List (String × List Post) → RunAcc → RunAcc
  | [], acc => acc
  | (s, ps) :: rest, acc =>
    if cfg.postLimit ≤ (scanPosts cfg wm outcomes s ps acc).processed.length
    then scanPosts cfg wm outcomes s ps acc
    else scanSubs cfg wm outcomes rest (scanPosts cfg wm outcomes s ps acc)

/-- The three terminal outcomes of a run (§6 of the spec): success with
items, success with no new data, or an upload failure. -/
inductive RunOutcome
  | noNewData
  | processedOk (n : Nat)
  | uploadError
deriving Repr, DecidableEq

/-- HTTP-style status code carried by each outcome's return dict. -/
def RunOutcome.statusCode : RunOutcome → Nat
  | .noNewData => 200
  | .processedOk _ => 200
  | .uploadError => 500

/-- The batch envelope written to S3 (lines 412-420): metadata
`total_items` plus the collected data. -/
structure Batch where
  totalItems : Nat
  data : List BatchItem
deriving Repr, DecidableEq

/-- Observable result of one `lambda_handler` run: the returned outcome,
whether a store write was attempted and whether it succeeded, the batch
that was persisted (if any), and the watermark as persisted after the
run. -/
structure RunResult where
  outcome : RunOutcome
  writeAttempted : Bool
  persisted : Bool
  batch : Option Batch
  watermarkAfter : Option ℚ
deriving Repr, DecidableEq

/-- The tail of `lambda_handler` (lines 401-442) composed with the scan:
an empty `processed_data` returns the distinct `No new data` outcome
before any store interaction; otherwise the batch is written, and only
after a successful write is the watermark advanced (to
`newest_timestamp`, and only when that is positive).  `s3Ok` says
whether the `put_object` call succeeds; a failed write leaves the
watermark untouched and surfaces the 500 outcome. -/
def lambda_handler (cfg : Cfg) (wm : Option ℚ) (outcomes : Post → Nat → BedrockResult)
    (subs : List (String × List Post)) (s3Ok : Bool) : RunResult :=
  if (scanSubs cfg wm outcomes subs ⟨[], 0⟩).processed.isEmpty then
    ⟨.noNewData, false, false, none, wm⟩
  else if s3Ok then
    ⟨.processedOk (scanSubs cfg wm outcomes subs ⟨[], 0⟩).processed.length, true, true,
      some ⟨(scanSubs cfg wm outcomes subs ⟨[], 0⟩).processed.length,
        (scanSubs cfg wm outcomes subs ⟨[], 0⟩).processed⟩,
      if 0 < (scanSubs cfg wm outcomes subs ⟨[], 0⟩).newest
      then some (scanSubs cfg wm outcomes subs ⟨[], 0⟩).newest else wm⟩
  else
    ⟨.uploadError, true, false, none, wm⟩

/-- Fixture configuration: one keyword, AI check disabled. -/
def cfgBase : Cfg :=
  ⟨["aapl"], [], 10, 10, 5, 50, 100, false, false⟩

/-- Fixture: a post matching the keyword, meeting score and length
thresholds, created at 20. -/
def postA : Post :=
  ⟨"a1", "AAPL to the moon", "my thesis about aapl gains", "u/a", 20, 50, 0, []⟩

/-- Fixture: a post matching no keyword, created at 30 (newer than
`postA`). -/
def postB : Post :=
  ⟨"b1", "cat pictures", "just some cats today", "u/b", 30, 50, 0, []⟩

/-- Fixture: a keyword-matching post created exactly at the watermark. -/
def postC : Post :=
  ⟨"c1", "AAPL dip", "buying aapl today for sure", "u/c", 10, 50, 0, []⟩

/-- Fixture Bedrock oracle that is never consulted. -/
def noBedrock : Post → Nat → BedrockResult := fun _ _ => .emptyContent

example :
    (lambda_handler cfgBase (some 10) noBedrock [("stocks", [postA, postB])] true).watermarkAfter
      = some 30 := by decide
example :
    (lambda_handler cfgBase (some 10) noBedrock [("stocks", [postA, postB])] true).batch
      = some ⟨1, [sanitize_post_data (rawPostItem "stocks" postA)]⟩ := by decide
example :
    (lambda_handler cfgBase (some 10) noBedrock [("stocks", [postC])] true).outcome
      = .processedOk 1 := by decide
example :
    (lambda_handler cfgBase (some 10) noBedrock [("stocks", [postB])] false).outcome
      = .noNewData := by decide

theorem retryGo_tried_ne_nil {E A : Type} (op : Nat → Except E A) (b m : ℚ)
    (fuel a : Nat) : (retryGo op b m a fuel).tried ≠ [] := by
  cases fuel <;> unfold retryGo <;> cases h : op a <;> simp

theorem retryGo_tried_length_le {E A : Type} (op : Nat → Except E A) (b m : ℚ)
    (fuel a : Nat) : (retryGo op b m a fuel).tried.length ≤ fuel + 1 := by
  induction fuel generalizing a with
  | zero => unfold retryGo; cases h : op a <;> simp
  | succ fuel ih =>
    unfold retryGo
    cases h : op a with
    | ok x => simp
    | error e =>
      simp only [List.length_cons]
      exact Nat.succ_le_succ (ih (a + 1))

theorem retryGo_tried_range' {E A : Type} (op : Nat → Except E A) (b m : ℚ)
    (fuel a : Nat) :
    (retryGo op b m a fuel).tried
      = List.range' a (retryGo op b m a fuel).tried.length := by
  induction fuel generalizing a with
  | zero => unfold retryGo; cases h : op a <;> simp
  | succ fuel ih =>
    unfold retryGo
    cases h : op a with
    | ok x => simp
    | error e =>
      simp only [List.length_cons]
      rw [List.range'_succ]
      exact congrArg (a :: ·) (ih (a + 1))

theorem retryGo_sleeps_eq {E A : Type} (op : Nat → Except E A) (b m : ℚ)
    (fuel a : Nat) :
    (retryGo op b m a fuel).sleeps
      = (List.range' a ((retryGo op b m a fuel).tried.length - 1)).map
          (fun k => pyMin (b * pow2 k) m) := by
  induction fuel generalizing a with
  | zero => unfold retryGo; cases h : op a <;> simp
  | succ fuel ih =>
    unfold retryGo
    cases h : op a with
    | ok x => simp
    | error e =>
      simp only [List.length_cons, Nat.add_sub_cancel]
      have hne := retryGo_tried_ne_nil op b m fuel (a + 1)
      have hlen : (retryGo op b m (a + 1) fuel).tried.length ≠ 0 := by
        simpa [List.length_eq_zero] using hne
      calc pyMin (b * pow2 a) m :: (retryGo op b m (a + 1) fuel).sleeps
          = pyMin (b * pow2 a) m
              :: (List.range' (a + 1) ((retryGo op b m (a + 1) fuel).tried.length - 1)).map
                (fun k => pyMin (b * pow2 k) m) := by rw [ih]
        _ = (List.range' a ((retryGo op b m (a + 1) fuel).tried.length)).map
                (fun k => pyMin (b * pow2 k) m) := by
              conv_rhs => rw [show (retryGo op b m (a + 1) fuel).tried.length
                = ((retryGo op b m (a + 1) fuel).tried.length - 1) + 1 from
                  (Nat.succ_pred_eq_of_pos (Nat.pos_of_ne_zero hlen)).symm]
              rw [List.range'_succ, List.map_cons]

theorem retryGo_ok_eq {E A : Type} {op : Nat → Except E A} {b m : ℚ}
    {a fuel : Nat} {x : A} (h : op a = .ok x) :
    retryGo op b m a fuel = ⟨.ok x, [a], []⟩ := by
  cases fuel <;> unfold retryGo <;> rw [h]

theorem retryGo_error_zero_eq {E A : Type} {op : Nat → Except E A} {b m : ℚ}
    {a : Nat} {e : E} (h : op a = .error e) :
    retryGo op b m a 0 = ⟨.error e, [a], []⟩ := by
  unfold retryGo; rw [h]

theorem retryGo_error_succ_eq {E A : Type} {op : Nat → Except E A} {b m : ℚ}
    {a fuel : Nat} {e : E} (h : op a = .error e) :
    retryGo op b m a (fuel + 1)
      = ⟨(retryGo op b m (a + 1) fuel).result,
          a :: (retryGo op b m (a + 1) fuel).tried,
          pyMin (b * pow2 a) m :: (retryGo op b m (a + 1) fuel).sleeps⟩ := by
  conv_lhs => unfold retryGo
  rw [h]

theorem retryGo_ok {E A : Type} (op : Nat → Except E A) (b m : ℚ)
    (fuel a k : Nat) (x : A) (hak : a ≤ k)
    (hk : k < a + (retryGo op b m a fuel).tried.length) (hop : op k = .ok x) :
    (retryGo op b m a fuel).result = .ok x
      ∧ a + (retryGo op b m a fuel).tried.length = k + 1 := by
  induction fuel generalizing a with
  | zero =>
    cases h : op a with
    | ok y =>
      rw [retryGo_ok_eq h] at hk ⊢
      simp only [List.length_cons, List.length_nil] at hk
      have hka : k = a := by omega
      subst hka
      rw [h] at hop
      cases hop
      simp
    | error e =>
      rw [retryGo_error_zero_eq h] at hk
      simp only [List.length_cons, List.length_nil] at hk
      have hka : k = a := by omega
      subst hka
      rw [h] at hop
      cases hop
  | succ fuel ih =>
    cases h : op a with
    | ok y =>
      rw [retryGo_ok_eq h] at hk ⊢
      simp only [List.length_cons, List.length_nil] at hk
      have hka : k = a := by omega
      subst hka
      rw [h] at hop
      cases hop
      simp
    | error e =>
      rw [retryGo_error_succ_eq h] at hk ⊢
      simp only [List.length_cons] at hk ⊢
      have hka : k ≠ a := by
        intro hka
        subst hka
        rw [h] at hop
        cases hop
      obtain ⟨h1, h2⟩ := ih (a + 1) (by omega) (by omega)
      exact ⟨h1, by omega⟩

theorem retryGo_all_error {E A : Type} (op : Nat → Except E A) (b m : ℚ)
    (fuel a : Nat) (herr : ∀ k, a ≤ k → k ≤ a + fuel → ∃ e, op k = .error e) :
    ∃ e, op (a + fuel) = .error e
      ∧ (retryGo op b m a fuel).result = .error e
      ∧ (retryGo op b m a fuel).tried.length = fuel + 1 := by
  induction fuel generalizing a with
  | zero =>
    obtain ⟨e, he⟩ := herr a (Nat.le_refl a) (by omega)
    refine ⟨e, by simpa using he, ?_, ?_⟩ <;> unfold retryGo <;> simp [he]
  | succ fuel ih =>
    obtain ⟨e0, he0⟩ := herr a (Nat.le_refl a) (by omega)
    obtain ⟨e, he, hres, hlen⟩ := ih (a + 1) (fun k h1 h2 => herr k (by omega) (by omega))
    refine ⟨e, by rw [show a + (fuel + 1) = a + 1 + fuel by omega]; exact he, ?_, ?_⟩ <;>
      unfold retryGo <;> simp [he0, hres, hlen]

theorem pyMin_eq_min (a b : ℚ) : pyMin a b = min a b := by
  rw [pyMin, min_def]

theorem pow2_eq (k : Nat) : pow2 k = (2 : ℚ) ^ k := by
  unfold pow2; push_cast; ring

/-- C9: a `retry_with_backoff(r, b, m)`-wrapped operation is attempted
at most `r + 1` times; after the `k`-th failed attempt (0-based,
`k < r`) the wrapper sleeps exactly `min(b * 2 ^ k, m)` with no jitter;
a successful attempt returns its result immediately (it is the last
executed attempt); if all `r + 1` attempts fail, the last failure is
propagated. -/
theorem retry_with_backoff_contract {E A : Type} (op : Nat → Except E A)
    (r : Nat) (b m : ℚ) :
    (retry_with_backoff r b m op).tried.length ≤ r + 1
    ∧ (retry_with_backoff r b m op).sleeps
        = (List.range ((retry_with_backoff r b m op).tried.length - 1)).map
            (fun k => min (b * 2 ^ k) m)
    ∧ (∀ k x, k < (retry_with_backoff r b m op).tried.length → op k = .ok x →
        (retry_with_backoff r b m op).result = .ok x
          ∧ (retry_with_backoff r b m op).tried.length = k + 1)
    ∧ ((∀ k, k ≤ r → ∃ e, op k = .error e) →
        ∃ e, op r = .error e ∧ (retry_with_backoff r b m op).result = .error e
          ∧ (retry_with_backoff r b m op).tried.length = r + 1) := by
  refine ⟨retryGo_tried_length_le op b m r 0, ?_, ?_, ?_⟩
  · rw [retry_with_backoff, retryGo_sleeps_eq op b m r 0, ← List.range_eq_range']
    exact List.map_congr_left fun k _ => by rw [pyMin_eq_min, pow2_eq]
  · intro k x hk hop
    simpa using retryGo_ok op b m r 0 k x (Nat.zero_le k) (by simpa using hk) hop
  · intro herr
    simpa using retryGo_all_error op b m r 0 (fun k _ h2 => herr k (by omega))

theorem retry_with_backoff_contract_witness :
    (retry_with_backoff 3 2 30 (fun _ => (Except.error "boom" : Except String Nat))).result
        = .error "boom"
    ∧ (retry_with_backoff 3 2 30
        (fun _ => (Except.error "boom" : Except String Nat))).tried.length = 4 := by
  obtain ⟨-, -, -, hfail⟩ :=
    retry_with_backoff_contract (fun _ => (Except.error "boom" : Except String Nat)) 3 2 30
  obtain ⟨e, he, hres, hlen⟩ := hfail (fun k _ => ⟨"boom", rfl⟩)
  injection he with he'
  subst he'
  exact ⟨hres, hlen⟩

theorem relevanceTrace_eq (bp : Bool) (p : Post) (oc : Nat → BedrockResult) :
    relevanceTrace bp p oc = ⟨.ok (aiBody bp p (oc 0)), [0], []⟩ := by
  unfold relevanceTrace retry_with_backoff
  exact retryGo_ok_eq rfl

theorem is_post_relevant_by_ai_eq (bp : Bool) (p : Post) (oc : Nat → BedrockResult) :
    is_post_relevant_by_ai bp p oc = (aiBody bp p (oc 0)).1 := by
  unfold is_post_relevant_by_ai
  rw [relevanceTrace_eq]

theorem relevanceAttempts_eq (bp : Bool) (p : Post) (oc : Nat → BedrockResult) :
    relevanceAttempts bp p oc = 1 := by
  unfold relevanceAttempts
  rw [relevanceTrace_eq]
  rfl

theorem relevanceServiceCalls_eq (bp : Bool) (p : Post) (oc : Nat → BedrockResult) :
    relevanceServiceCalls bp p oc = (aiBody bp p (oc 0)).2 := by
  unfold relevanceServiceCalls
  rw [relevanceTrace_eq]
  simp

/-- Fixture: a keyword-matching post whose title plus body is at least
50 characters, so the relevance check reaches `invoke_model`. -/
def postAI : Post :=
  ⟨"d1", "AAPL earnings preview for the upcoming quarter",
    "A detailed discussion of aapl revenue, margins and guidance going into earnings week.",
    "u/d", 40, 80, 0, []⟩

/-- C4: decision policy of the AI relevance stage for a post whose call
actually reaches the service: throttling-type errors accept
(fail-open), model-access-denied and validation errors reject, a
successful call parsed to `{"decision": "IRRELEVANT"}` rejects, and
unrecognized errors accept. -/
theorem ai_raised_eq (p : Post) (msg : String)
    (hlen : 50 ≤ (p.title ++ p.selftext).length) :
    is_post_relevant_by_ai true p (fun _ => .raised msg) = classifyBedrockError msg := by
  rw [is_post_relevant_by_ai_eq]
  have hnl : ¬ p.title.length + p.selftext.length < 50 := by
    rw [← String.length_append]; omega
  simp [aiBody, hnl]

theorem ai_content_eq (p : Post) (text : String) (parsed : JsonParse)
    (hlen : 50 ≤ (p.title ++ p.selftext).length) :
    is_post_relevant_by_ai true p (fun _ => .content text parsed)
      = interpretContent text parsed := by
  rw [is_post_relevant_by_ai_eq]
  have hnl : ¬ p.title.length + p.selftext.length < 50 := by
    rw [← String.length_append]; omega
  simp [aiBody, hnl]

/-- C4: decision policy of the AI relevance stage for a post whose call
actually reaches the service: throttling-type errors accept
(fail-open), model-access-denied and validation errors reject, a
successful call parsed to `{"decision": "IRRELEVANT"}` rejects, and
unrecognized errors accept. -/
theorem ai_decision_policy (p : Post) (msg : String)
    (hlen : 50 ≤ (p.title ++ p.selftext).length) :
    ((containsStr "ThrottlingException" msg || containsStr "Too many requests" msg) = true →
      containsStr "You don\x27t have access to the model" msg = false →
      is_post_relevant_by_ai true p (fun _ => .raised msg) = true)
    ∧ (containsStr "You don\x27t have access to the model" msg = true →
      is_post_relevant_by_ai true p (fun _ => .raised msg) = false)
    ∧ (containsStr "ValidationException" msg = true →
      containsStr "You don\x27t have access to the model" msg = false →
      (containsStr "ThrottlingException" msg || containsStr "Too many requests" msg) = false →
      is_post_relevant_by_ai true p (fun _ => .raised msg) = false)
    ∧ (containsStr "You don\x27t have access to the model" msg = false →
      (containsStr "ThrottlingException" msg || containsStr "Too many requests" msg) = false →
      containsStr "ValidationException" msg = false →
      is_post_relevant_by_ai true p (fun _ => .raised msg) = true)
    ∧ (∀ text,
      is_post_relevant_by_ai true p
        (fun _ => .content text (.dict (some "IRRELEVANT"))) = false) := by
  refine ⟨?_, ?_, ?_, ?_, ?_⟩
  · intro h1 h2
    rw [ai_raised_eq p msg hlen]
    simp [classifyBedrockError, h1, h2]
  · intro h1
    rw [ai_raised_eq p msg hlen]
    simp [classifyBedrockError, h1]
  · intro h1 h2 h3
    rw [ai_raised_eq p msg hlen]
    simp [classifyBedrockError, h1, h2, h3]
  · intro h1 h2 h3
    rw [ai_raised_eq p msg hlen]
    simp [classifyBedrockError, h1, h2, h3]
  · intro text
    rw [ai_content_eq p text _ hlen]
    simp [interpretContent]
    decide

theorem ai_decision_policy_witness :
    is_post_relevant_by_ai true postAI
        (fun _ => .raised "ThrottlingException: rate exceeded") = true
    ∧ is_post_relevant_by_ai true postAI
        (fun _ => .raised "You don\x27t have access to the model") = false
    ∧ is_post_relevant_by_ai true postAI
        (fun _ => .raised "ValidationException: malformed body") = false
    ∧ is_post_relevant_by_ai true postAI
        (fun _ => .raised "SomethingUnexpected happened") = true
    ∧ is_post_relevant_by_ai true postAI
        (fun _ => .content "\x7b\"decision\": \"IRRELEVANT\"\x7d" (.dict (some "IRRELEVANT"))) = false := by
  obtain ⟨h1, -, -, -, -⟩ :=
    ai_decision_policy postAI "ThrottlingException: rate exceeded" (by decide)
  obtain ⟨-, h2, -, -, -⟩ :=
    ai_decision_policy postAI "You don\x27t have access to the model" (by decide)
  obtain ⟨-, -, h3, -, -⟩ :=
    ai_decision_policy postAI "ValidationException: malformed body" (by decide)
  obtain ⟨-, -, -, h4, -⟩ :=
    ai_decision_policy postAI "SomethingUnexpected happened" (by decide)
  obtain ⟨-, -, -, -, h5⟩ :=
    ai_decision_policy postAI "unused" (by decide)
  exact ⟨h1 (by decide) (by decide), h2 (by decide),
    h3 (by decide) (by decide) (by decide),
    h4 (by decide) (by decide) (by decide),
    h5 "\x7b\"decision\": \"IRRELEVANT\"\x7d"⟩

/-- Case-insensitive substring containment, as the spec phrases the
fallback: both sides are upper-cased before the search. -/
def containsCaseInsensitive (needle haystack : String) : Bool :=
  containsStr (pyUpper needle) (pyUpper haystack)

/-- C10: when the relevance-service response text is not parseable JSON,
the decision is accept exactly when the text contains `RELEVANT`
case-insensitively; in particular the bare non-JSON reply `IRRELEVANT`
is accepted, because `IRRELEVANT` contains `RELEVANT` as a substring. -/
theorem nonjson_fallback_substring (text : String) :
    interpretContent text .parseError = containsCaseInsensitive "RELEVANT" text
    ∧ containsStr "RELEVANT" "IRRELEVANT" = true
    ∧ interpretContent "IRRELEVANT" .parseError = true
    ∧ is_post_relevant_by_ai true postAI (fun _ => .content "IRRELEVANT" .parseError) = true := by
  refine ⟨?_, by decide, by decide, ?_⟩
  · rw [interpretContent, containsCaseInsensitive,
      show pyUpper "RELEVANT" = "RELEVANT" from by decide]
  · rw [ai_content_eq postAI "IRRELEVANT" _ (by decide)]
    decide

/-- C8 counterexample: under persistent throttling the wrapped relevance
check executes its body exactly once — not more than once — because the
throttling exception is caught inside `is_post_relevant_by_ai` and turned
into a fail-open accept before the retry decorator can see a failure. -/
theorem throttling_not_retried_cex :
    relevanceAttempts true postAI
        (fun _ => .raised "ThrottlingException: rate exceeded") = 1
    ∧ ¬ 1 < relevanceAttempts true postAI
        (fun _ => .raised "ThrottlingException: rate exceeded")
    ∧ relevanceServiceCalls true postAI
        (fun _ => .raised "ThrottlingException: rate exceeded") = 1
    ∧ is_post_relevant_by_ai true postAI
        (fun _ => .raised "ThrottlingException: rate exceeded") = true := by
  refine ⟨relevanceAttempts_eq _ _ _, ?_, ?_, by decide⟩
  · rw [relevanceAttempts_eq]
    omega
  · rw [relevanceServiceCalls_eq]
    decide

/-- C8 amended: a relevance-check invocation whose underlying call
raises a throttling-type error returns the fail-open accept decision
after exactly one execution of the wrapped body and exactly one service
call; the retry wrapper performs no further attempts because the
exception never escapes the wrapped function. -/
theorem throttling_fail_open_single_attempt (p : Post) (msg : String)
    (oc : Nat → BedrockResult)
    (hlen : 50 ≤ (p.title ++ p.selftext).length)
    (hthr : (containsStr "ThrottlingException" msg
        || containsStr "Too many requests" msg) = true)
    (hacc : containsStr "You don\x27t have access to the model" msg = false)
    (hoc : ∀ k, oc k = .raised msg) :
    is_post_relevant_by_ai true p oc = true
    ∧ relevanceAttempts true p oc = 1
    ∧ relevanceServiceCalls true p oc = 1 := by
  have hoc0 : oc = fun _ => .raised msg := funext hoc
  subst hoc0
  refine ⟨?_, relevanceAttempts_eq _ _ _, ?_⟩
  · rw [ai_raised_eq p msg hlen]
    simp [classifyBedrockError, hthr, hacc]
  · rw [relevanceServiceCalls_eq]
    have hnl : ¬ p.title.length + p.selftext.length < 50 := by
      rw [← String.length_append]; omega
    simp [aiBody, hnl]

theorem throttling_fail_open_single_attempt_witness :
    is_post_relevant_by_ai true postAI
        (fun _ => .raised "ThrottlingException: slow down") = true
    ∧ relevanceAttempts true postAI
        (fun _ => .raised "ThrottlingException: slow down") = 1
    ∧ relevanceServiceCalls true postAI
        (fun _ => .raised "ThrottlingException: slow down") = 1 :=
  throttling_fail_open_single_attempt postAI "ThrottlingException: slow down"
    (fun _ => .raised "ThrottlingException: slow down")
    (by decide) (by decide) (by decide) (fun _ => rfl)

theorem processPost_passedWatermark (cfg : Cfg) (wm : Option ℚ)
    (oc : Nat → BedrockResult) (sub : String) (p : Post) :
    (processPost cfg wm oc sub p).passedWatermark = !watermarkSkips wm p := by
  unfold processPost
  cases hw : watermarkSkips wm p
  · simp only [hw, Bool.false_eq_true, if_false, Bool.not_false]
    repeat' split
    all_goals rfl
  · simp [hw]

theorem processPost_items_shape (cfg : Cfg) (wm : Option ℚ)
    (oc : Nat → BedrockResult) (sub : String) (p : Post) :
    (processPost cfg wm oc sub p).items = []
    ∨ ((processPost cfg wm oc sub p).items
          = sanitize_post_data (rawPostItem sub p) :: acceptedComments cfg sub p
        ∧ (processPost cfg wm oc sub p).passedWatermark = true
        ∧ (processPost cfg wm oc sub p).rejectStage = none) := by
  unfold processPost
  repeat' split
  all_goals simp

theorem processPost_service_shape (cfg : Cfg) (wm : Option ℚ)
    (oc : Nat → BedrockResult) (sub : String) (p : Post) :
    (processPost cfg wm oc sub p).serviceCalls = 0
    ∨ (processPost cfg wm oc sub p).rejectStage = none
    ∨ (processPost cfg wm oc sub p).rejectStage = some .ai := by
  unfold processPost
  repeat' split
  all_goals simp

theorem processPost_items_ne_nil (cfg : Cfg) (wm : Option ℚ)
    (oc : Nat → BedrockResult) (sub : String) (p : Post)
    (h : (processPost cfg wm oc sub p).items ≠ []) :
    (processPost cfg wm oc sub p).items
        = sanitize_post_data (rawPostItem sub p) :: acceptedComments cfg sub p
      ∧ (processPost cfg wm oc sub p).passedWatermark = true
      ∧ (processPost cfg wm oc sub p).rejectStage = none := by
  rcases processPost_items_shape cfg wm oc sub p with h0 | h1
  · exact absurd h0 h
  · exact h1

/-- Every batch item a single post contributes is either the post's own
(sanitized) record, whose `created_utc` is the post's, or a comment
record (whose timestamp never feeds the watermark). -/
def postItemLE (bound : ℚ) : BatchItem → Prop
  | .postItem _ _ _ _ _ c _ _ => c ≤ bound
  | .commentItem _ _ _ _ _ _ _ => True

theorem postItemLE_mono {x y : ℚ} (hxy : x ≤ y) :
    ∀ b : BatchItem, postItemLE x b → postItemLE y b
  | .postItem _ _ _ _ _ _ _ _, h => le_trans h hxy
  | .commentItem _ _ _ _ _ _ _, _ => trivial

theorem processPost_items_le (cfg : Cfg) (wm : Option ℚ)
    (oc : Nat → BedrockResult) (sub : String) (p : Post) :
    ∀ b ∈ (processPost cfg wm oc sub p).items, postItemLE p.created_utc b := by
  intro b hb
  by_cases h : (processPost cfg wm oc sub p).items = []
  · rw [h] at hb
    cases hb
  · obtain ⟨hitems, -, -⟩ := processPost_items_ne_nil cfg wm oc sub p h
    rw [hitems] at hb
    rcases List.mem_cons.mp hb with hb | hb
    · subst hb
      simp [sanitize_post_data, rawPostItem, postItemLE]
    · unfold acceptedComments at hb
      simp only [List.mem_map] at hb
      obtain ⟨c, -, hc⟩ := hb
      subst hc
      simp [sanitize_post_data, rawCommentItem, postItemLE]

theorem processPost_noService (cfg : Cfg) (wm : Option ℚ)
    (oc : Nat → BedrockResult) (sub : String) (p : Post) (s : Stage)
    (hs : (processPost cfg wm oc sub p).rejectStage = some s) (hne : s ≠ .ai) :
    (processPost cfg wm oc sub p).serviceCalls = 0 := by
  rcases processPost_service_shape cfg wm oc sub p with h | h | h
  · exact h
  · rw [hs] at h
    simp at h
  · rw [hs] at h
    injection h with h2
    exact absurd h2 hne

/-- C5: the cascade stages are evaluated strictly in source order —
watermark, keyword, ignore-keyword, score, length, AI relevance — with
short-circuit on the first rejection: each stage label is reported
exactly when all earlier stages passed and that stage failed, and any
post rejected before the AI stage triggers zero relevance-service
calls. -/
theorem cascade_order (cfg : Cfg) (wm : Option ℚ) (oc : Nat → BedrockResult)
    (sub : String) (p : Post) :
    ((processPost cfg wm oc sub p).rejectStage = some .watermark
        ↔ watermarkSkips wm p = true)
    ∧ ((processPost cfg wm oc sub p).rejectStage = some .keyword
        ↔ (watermarkSkips wm p = false ∧ hasKeywords cfg p = false))
    ∧ ((processPost cfg wm oc sub p).rejectStage = some .ignoreKw
        ↔ (watermarkSkips wm p = false ∧ hasKeywords cfg p = true
            ∧ hasIgnoreKeywords cfg p = true))
    ∧ ((processPost cfg wm oc sub p).rejectStage = some .score
        ↔ (watermarkSkips wm p = false ∧ hasKeywords cfg p = true
            ∧ hasIgnoreKeywords cfg p = false ∧ p.score < cfg.minPostScore))
    ∧ ((processPost cfg wm oc sub p).rejectStage = some .length
        ↔ (watermarkSkips wm p = false ∧ hasKeywords cfg p = true
            ∧ hasIgnoreKeywords cfg p = false ∧ ¬ p.score < cfg.minPostScore
            ∧ p.selftext.length < cfg.minPostLength))
    ∧ ((processPost cfg wm oc sub p).rejectStage = some .ai
        → (watermarkSkips wm p = false ∧ hasKeywords cfg p = true
            ∧ hasIgnoreKeywords cfg p = false ∧ ¬ p.score < cfg.minPostScore
            ∧ ¬ p.selftext.length < cfg.minPostLength
            ∧ (cfg.enableAiCheck && cfg.bedrockAvailable) = true
            ∧ is_post_relevant_by_ai cfg.bedrockAvailable p oc = false))
    ∧ (∀ s, (processPost cfg wm oc sub p).rejectStage = some s → s ≠ .ai →
        (processPost cfg wm oc sub p).serviceCalls = 0) := by
  refine ⟨?_, ?_, ?_, ?_, ?_, ?_,
    fun s hs hne => processPost_noService cfg wm oc sub p s hs hne⟩ <;>
    (unfold processPost
     cases hw : watermarkSkips wm p <;>
     cases hk : hasKeywords cfg p <;>
     cases hi : hasIgnoreKeywords cfg p <;>
     by_cases hsc : p.score < cfg.minPostScore <;>
     by_cases hl : p.selftext.length < cfg.minPostLength <;>
     cases ha : cfg.enableAiCheck && cfg.bedrockAvailable <;>
     cases hr : is_post_relevant_by_ai cfg.bedrockAvailable p oc <;>
     simp [hw, hk, hi, hsc, hl, ha, hr, validate_post_data])

/-- Fixture configuration identical to `cfgBase` but with the AI stage
enabled and a Bedrock client available. -/
def cfgAI : Cfg :=
  ⟨["aapl"], [], 10, 10, 5, 50, 100, true, true⟩

theorem cascade_order_witness :
    (processPost cfgAI (some 10)
        (fun _ => .raised "ThrottlingException") "stocks" postB).rejectStage
      = some .keyword
    ∧ (processPost cfgAI (some 10)
        (fun _ => .raised "ThrottlingException") "stocks" postB).serviceCalls = 0 := by
  obtain ⟨-, h2, -, -, -, -, h7⟩ :=
    cascade_order cfgAI (some 10) (fun _ => .raised "ThrottlingException") "stocks" postB
  have hk : (processPost cfgAI (some 10)
      (fun _ => .raised "ThrottlingException") "stocks" postB).rejectStage
        = some .keyword :=
    h2.mpr ⟨by decide, by decide⟩
  exact ⟨hk, h7 _ hk (by decide)⟩

/-- C7 counterexample: with watermark `10`, the post `postC` created
exactly at `10` passes the watermark stage and is ingested by the run
(the source comparison at line 275 is strict `<`). -/
theorem equal_timestamp_ingested_cex :
    postC.created_utc = 10
    ∧ (processPost cfgBase (some 10)
        (fun _ => .emptyContent) "stocks" postC).passedWatermark = true
    ∧ (processPost cfgBase (some 10)
        (fun _ => .emptyContent) "stocks" postC).rejectStage = none
    ∧ (lambda_handler cfgBase (some 10) noBedrock [("stocks", [postC])] true).outcome
        = .processedOk 1
    ∧ (lambda_handler cfgBase (some 10) noBedrock [("stocks", [postC])] true).batch
        = some ⟨1, [sanitize_post_data (rawPostItem "stocks" postC)]⟩ := by
  refine ⟨rfl, by decide, by decide, by decide, by decide⟩

/-- C7 amended: the watermark stage rejects exactly the items created
strictly before the watermark; an item created at or after the
watermark instant passes the stage (and is ingested if it passes the
remaining stages).  The stage only applies when a truthy watermark
exists. -/
theorem processPost_rejectStage_watermark (cfg : Cfg) (wm : Option ℚ)
    (oc : Nat → BedrockResult) (sub : String) (p : Post) :
    (processPost cfg wm oc sub p).rejectStage = some .watermark
      ↔ watermarkSkips wm p = true := by
  unfold processPost
  cases hw : watermarkSkips wm p <;>
  cases hk : hasKeywords cfg p <;>
  cases hi : hasIgnoreKeywords cfg p <;>
  by_cases hsc : p.score < cfg.minPostScore <;>
  by_cases hl : p.selftext.length < cfg.minPostLength <;>
  cases ha : cfg.enableAiCheck && cfg.bedrockAvailable <;>
  cases hr : is_post_relevant_by_ai cfg.bedrockAvailable p oc <;>
  simp [hw, hk, hi, hsc, hl, ha, hr, validate_post_data]

theorem watermark_stage_strict (cfg : Cfg) (wm : Option ℚ)
    (oc : Nat → BedrockResult) (sub : String) (p : Post) :
    ((processPost cfg wm oc sub p).passedWatermark = false
      ↔ (pyTruthy wm = true ∧ p.created_utc < wm.getD 0))
    ∧ ((processPost cfg wm oc sub p).rejectStage = some .watermark
      ↔ (pyTruthy wm = true ∧ p.created_utc < wm.getD 0)) := by
  have hw : watermarkSkips wm p = (pyTruthy wm && decide (p.created_utc < wm.getD 0)) := rfl
  constructor
  · rw [processPost_passedWatermark, hw]
    cases ht : pyTruthy wm <;> simp
  · rw [processPost_rejectStage_watermark, hw]
    cases ht : pyTruthy wm <;> simp

theorem stepAcc_processed (cfg : Cfg) (wm : Option ℚ)
    (oc : Post → Nat → BedrockResult) (sub : String) (p : Post) (acc : RunAcc) :
    (stepAcc cfg wm oc sub p acc).processed
      = acc.processed ++ (processPost cfg wm (oc p) sub p).items := rfl

theorem stepAcc_newest_ge (cfg : Cfg) (wm : Option ℚ)
    (oc : Post → Nat → BedrockResult) (sub : String) (p : Post) (acc : RunAcc) :
    acc.newest ≤ (stepAcc cfg wm oc sub p acc).newest := by
  unfold stepAcc
  dsimp only
  split
  · exact le_max_left _ _
  · exact le_refl _

theorem stepAcc_newest_passed (cfg : Cfg) (wm : Option ℚ)
    (oc : Post → Nat → BedrockResult) (sub : String) (p : Post) (acc : RunAcc)
    (h : (processPost cfg wm (oc p) sub p).passedWatermark = true) :
    (stepAcc cfg wm oc sub p acc).newest = max acc.newest p.created_utc := by
  unfold stepAcc
  simp [h]

theorem scanPosts_nil (cfg : Cfg) (wm : Option ℚ)
    (oc : Post → Nat → BedrockResult) (sub : String) (acc : RunAcc) :
    scanPosts cfg wm oc sub [] acc = acc := rfl

theorem scanPosts_cons_rejected (cfg : Cfg) (wm : Option ℚ)
    (oc : Post → Nat → BedrockResult) (sub : String) (p : Post) (ps : List Post)
    (acc : RunAcc) (s : Stage)
    (h : (processPost cfg wm (oc p) sub p).rejectStage = some s) :
    scanPosts cfg wm oc sub (p :: ps) acc
      = scanPosts cfg wm oc sub ps (stepAcc cfg wm oc sub p acc) := by
  conv_lhs => unfold scanPosts
  rw [h]

theorem scanPosts_cons_accepted (cfg : Cfg) (wm : Option ℚ)
    (oc : Post → Nat → BedrockResult) (sub : String) (p : Post) (ps : List Post)
    (acc : RunAcc)
    (h : (processPost cfg wm (oc p) sub p).rejectStage = none) :
    scanPosts cfg wm oc sub (p :: ps) acc
      = if cfg.postLimit ≤ (stepAcc cfg wm oc sub p acc).processed.length
        then stepAcc cfg wm oc sub p acc
        else scanPosts cfg wm oc sub ps (stepAcc cfg wm oc sub p acc) := by
  conv_lhs => unfold scanPosts
  rw [h]

theorem scanSubs_nil (cfg : Cfg) (wm : Option ℚ)
    (oc : Post → Nat → BedrockResult) (acc : RunAcc) :
    scanSubs cfg wm oc [] acc = acc := rfl

theorem scanSubs_cons (cfg : Cfg) (wm : Option ℚ)
    (oc : Post → Nat → BedrockResult) (s : String) (ps : List Post)
    (rest : List (String × List Post)) (acc : RunAcc) :
    scanSubs cfg wm oc ((s, ps) :: rest) acc
      = if cfg.postLimit ≤ (scanPosts cfg wm oc s ps acc).processed.length
        then scanPosts cfg wm oc s ps acc
        else scanSubs cfg wm oc rest (scanPosts cfg wm oc s ps acc) := by
  conv_lhs => unfold scanSubs

theorem scanPosts_newest_mono (cfg : Cfg) (wm : Option ℚ)
    (oc : Post → Nat → BedrockResult) (sub : String) (ps : List Post) (acc : RunAcc) :
    acc.newest ≤ (scanPosts cfg wm oc sub ps acc).newest := by
  induction ps generalizing acc with
  | nil => exact le_refl _
  | cons p ps ih =>
    have hstep := stepAcc_newest_ge cfg wm oc sub p acc
    cases hrs : (processPost cfg wm (oc p) sub p).rejectStage with
    | some s =>
      rw [scanPosts_cons_rejected cfg wm oc sub p ps acc s hrs]
      exact le_trans hstep (ih _)
    | none =>
      rw [scanPosts_cons_accepted cfg wm oc sub p ps acc hrs]
      split
      · exact hstep
      · exact le_trans hstep (ih _)

theorem scanSubs_newest_mono (cfg : Cfg) (wm : Option ℚ)
    (oc : Post → Nat → BedrockResult) (subs : List (String × List Post)) (acc : RunAcc) :
    acc.newest ≤ (scanSubs cfg wm oc subs acc).newest := by
  induction subs generalizing acc with
  | nil => exact le_refl _
  | cons sp rest ih =>
    obtain ⟨s, ps⟩ := sp
    have hstep := scanPosts_newest_mono cfg wm oc s ps acc
    rw [scanSubs_cons]
    split
    · exact hstep
    · exact le_trans hstep (ih _)

theorem scanPosts_lb (R : ℚ → Prop) (hmono : ∀ x y : ℚ, x ≤ y → R x → R y)
    (cfg : Cfg) (wm : Option ℚ) (oc : Post → Nat → BedrockResult) (sub : String)
    (ps : List Post) (acc : RunAcc)
    (hposts : ∀ p ∈ ps, (processPost cfg wm (oc p) sub p).items ≠ [] → R p.created_utc)
    (hacc : acc.processed = [] ∨ R acc.newest) :
    (scanPosts cfg wm oc sub ps acc).processed = []
      ∨ R (scanPosts cfg wm oc sub ps acc).newest := by
  induction ps generalizing acc with
  | nil => exact hacc
  | cons p ps ih =>
    have hstep : (stepAcc cfg wm oc sub p acc).processed = []
        ∨ R (stepAcc cfg wm oc sub p acc).newest := by
      by_cases hit : (processPost cfg wm (oc p) sub p).items = []
      · rcases hacc with h | h
        · left
          rw [stepAcc_processed, hit, h, List.append_nil]
        · exact Or.inr (hmono _ _ (stepAcc_newest_ge cfg wm oc sub p acc) h)
      · obtain ⟨-, hpass, -⟩ := processPost_items_ne_nil cfg wm (oc p) sub p hit
        have hR := hposts p (List.mem_cons_self p ps) hit
        rw [stepAcc_newest_passed cfg wm oc sub p acc hpass]
        exact Or.inr (hmono _ _ (le_max_right _ _) hR)
    have hrest : ∀ q ∈ ps, (processPost cfg wm (oc q) sub q).items ≠ [] → R q.created_utc :=
      fun q hq => hposts q (List.mem_cons_of_mem p hq)
    cases hrs : (processPost cfg wm (oc p) sub p).rejectStage with
    | some s =>
      rw [scanPosts_cons_rejected cfg wm oc sub p ps acc s hrs]
      exact ih _ hrest hstep
    | none =>
      rw [scanPosts_cons_accepted cfg wm oc sub p ps acc hrs]
      split
      · exact hstep
      · exact ih _ hrest hstep

theorem scanSubs_lb (R : ℚ → Prop) (hmono : ∀ x y : ℚ, x ≤ y → R x → R y)
    (cfg : Cfg) (wm : Option ℚ) (oc : Post → Nat → BedrockResult)
    (subs : List (String × List Post)) (acc : RunAcc)
    (hposts : ∀ sp ∈ subs, ∀ p ∈ sp.2,
      (processPost cfg wm (oc p) sp.1 p).items ≠ [] → R p.created_utc)
    (hacc : acc.processed = [] ∨ R acc.newest) :
    (scanSubs cfg wm oc subs acc).processed = []
      ∨ R (scanSubs cfg wm oc subs acc).newest := by
  induction subs generalizing acc with
  | nil => exact hacc
  | cons sp rest ih =>
    obtain ⟨s, ps⟩ := sp
    have hstep := scanPosts_lb R hmono cfg wm oc s ps acc
      (fun p hp => hposts (s, ps) (List.mem_cons_self (s, ps) rest) p hp) hacc
    rw [scanSubs_cons]
    split
    · exact hstep
    · exact ih _ (fun q hq => hposts q (List.mem_cons_of_mem (s, ps) hq)) hstep

theorem scanPosts_items_le (cfg : Cfg) (wm : Option ℚ)
    (oc : Post → Nat → BedrockResult) (sub : String) (ps : List Post) (acc : RunAcc)
    (hacc : ∀ b ∈ acc.processed, postItemLE acc.newest b) :
    ∀ b ∈ (scanPosts cfg wm oc sub ps acc).processed,
      postItemLE (scanPosts cfg wm oc sub ps acc).newest b := by
  induction ps generalizing acc with
  | nil => exact hacc
  | cons p ps ih =>
    have hstep : ∀ b ∈ (stepAcc cfg wm oc sub p acc).processed,
        postItemLE (stepAcc cfg wm oc sub p acc).newest b := by
      intro b hb
      rw [stepAcc_processed] at hb
      rcases List.mem_append.mp hb with hb | hb
      · exact postItemLE_mono (stepAcc_newest_ge cfg wm oc sub p acc) b (hacc b hb)
      · have hit : (processPost cfg wm (oc p) sub p).items ≠ [] := by
          intro h0
          rw [h0] at hb
          cases hb
        obtain ⟨-, hpass, -⟩ := processPost_items_ne_nil cfg wm (oc p) sub p hit
        have hLE := processPost_items_le cfg wm (oc p) sub p b hb
        rw [stepAcc_newest_passed cfg wm oc sub p acc hpass]
        exact postItemLE_mono (le_max_right _ _) b hLE
    cases hrs : (processPost cfg wm (oc p) sub p).rejectStage with
    | some s =>
      rw [scanPosts_cons_rejected cfg wm oc sub p ps acc s hrs]
      exact ih _ hstep
    | none =>
      rw [scanPosts_cons_accepted cfg wm oc sub p ps acc hrs]
      split
      · exact hstep
      · exact ih _ hstep

theorem scanSubs_items_le (cfg : Cfg) (wm : Option ℚ)
    (oc : Post → Nat → BedrockResult) (subs : List (String × List Post)) (acc : RunAcc)
    (hacc : ∀ b ∈ acc.processed, postItemLE acc.newest b) :
    ∀ b ∈ (scanSubs cfg wm oc subs acc).processed,
      postItemLE (scanSubs cfg wm oc subs acc).newest b := by
  induction subs generalizing acc with
  | nil => exact hacc
  | cons sp rest ih =>
    obtain ⟨s, ps⟩ := sp
    have hstep := scanPosts_items_le cfg wm oc s ps acc hacc
    rw [scanSubs_cons]
    split
    · exact hstep
    · exact ih _ hstep

theorem lambda_handler_empty (cfg : Cfg) (wm : Option ℚ)
    (oc : Post → Nat → BedrockResult) (subs : List (String × List Post)) (s3Ok : Bool)
    (h : (scanSubs cfg wm oc subs ⟨[], 0⟩).processed = []) :
    lambda_handler cfg wm oc subs s3Ok = ⟨.noNewData, false, false, none, wm⟩ := by
  unfold lambda_handler
  rw [h]
  rfl

theorem lambda_handler_uploadFail (cfg : Cfg) (wm : Option ℚ)
    (oc : Post → Nat → BedrockResult) (subs : List (String × List Post))
    (h : (scanSubs cfg wm oc subs ⟨[], 0⟩).processed ≠ []) :
    lambda_handler cfg wm oc subs false = ⟨.uploadError, true, false, none, wm⟩ := by
  unfold lambda_handler
  rw [List.isEmpty_eq_false_iff_exists_mem.mpr (List.exists_mem_of_ne_nil _ h)]
  rfl

theorem lambda_handler_success (cfg : Cfg) (wm : Option ℚ)
    (oc : Post → Nat → BedrockResult) (subs : List (String × List Post))
    (h : (scanSubs cfg wm oc subs ⟨[], 0⟩).processed ≠ []) :
    lambda_handler cfg wm oc subs true
      = ⟨.processedOk (scanSubs cfg wm oc subs ⟨[], 0⟩).processed.length, true, true,
          some ⟨(scanSubs cfg wm oc subs ⟨[], 0⟩).processed.length,
            (scanSubs cfg wm oc subs ⟨[], 0⟩).processed⟩,
          if 0 < (scanSubs cfg wm oc subs ⟨[], 0⟩).newest
          then some (scanSubs cfg wm oc subs ⟨[], 0⟩).newest else wm⟩ := by
  unfold lambda_handler
  rw [List.isEmpty_eq_false_iff_exists_mem.mpr (List.exists_mem_of_ne_nil _ h)]
  rfl

theorem scanSubs_newest_ge_wm (cfg : Cfg) (w : ℚ) (oc : Post → Nat → BedrockResult)
    (subs : List (String × List Post))
    (hemp : (scanSubs cfg (some w) oc subs ⟨[], 0⟩).processed ≠ []) :
    w ≤ (scanSubs cfg (some w) oc subs ⟨[], 0⟩).newest := by
  by_cases hw0 : w = 0
  · subst hw0
    simpa using scanSubs_newest_mono cfg (some 0) oc subs ⟨[], 0⟩
  · have hposts : ∀ sp ∈ subs, ∀ p ∈ sp.2,
        (processPost cfg (some w) (oc p) sp.1 p).items ≠ [] → w ≤ p.created_utc := by
      intro sp hsp p hp hit
      obtain ⟨-, hpass, -⟩ := processPost_items_ne_nil cfg (some w) (oc p) sp.1 p hit
      rw [processPost_passedWatermark] at hpass
      have hskip : watermarkSkips (some w) p = false := by
        cases hws : watermarkSkips (some w) p
        · rfl
        · rw [hws] at hpass
          cases hpass
      have ht : pyTruthy (some w) = true := by simp [pyTruthy, hw0]
      unfold watermarkSkips at hskip
      rw [ht, Bool.true_and] at hskip
      simp only [Option.getD_some] at hskip
      exact le_of_not_lt (of_decide_eq_false hskip)
    have hlb := scanSubs_lb (fun x => w ≤ x) (fun x y hxy hx => le_trans hx hxy)
      cfg (some w) oc subs ⟨[], 0⟩ hposts (Or.inl rfl)
    rcases hlb with h | h
    · exact absurd h hemp
    · exact h

theorem run_watermark_mono (cfg : Cfg) (wm : Option ℚ) (oc : Post → Nat → BedrockResult)
    (subs : List (String × List Post)) (s3Ok : Bool) (w : ℚ) (hwm : wm = some w) :
    ∃ w', (lambda_handler cfg wm oc subs s3Ok).watermarkAfter = some w' ∧ w ≤ w' := by
  subst hwm
  by_cases hemp : (scanSubs cfg (some w) oc subs ⟨[], 0⟩).processed = []
  · rw [lambda_handler_empty cfg (some w) oc subs s3Ok hemp]
    exact ⟨w, rfl, le_refl w⟩
  · cases s3Ok with
    | false =>
      rw [lambda_handler_uploadFail cfg (some w) oc subs hemp]
      exact ⟨w, rfl, le_refl w⟩
    | true =>
      rw [lambda_handler_success cfg (some w) oc subs hemp]
      dsimp only
      by_cases h0 : 0 < (scanSubs cfg (some w) oc subs ⟨[], 0⟩).newest
      · exact ⟨(scanSubs cfg (some w) oc subs ⟨[], 0⟩).newest, by rw [if_pos h0],
          scanSubs_newest_ge_wm cfg w oc subs hemp⟩
      · exact ⟨w, by rw [if_neg h0], le_refl w⟩

/-- C2: a run in which zero items are accepted across all communities
performs no object-store write, leaves the persisted watermark
unchanged, and terminates with the distinct successful `No new data`
outcome (status 200), not a failure. -/
theorem zero_accepted_no_write (cfg : Cfg) (wm : Option ℚ)
    (oc : Post → Nat → BedrockResult) (subs : List (String × List Post)) (s3Ok : Bool)
    (h : (scanSubs cfg wm oc subs ⟨[], 0⟩).processed = []) :
    lambda_handler cfg wm oc subs s3Ok = ⟨.noNewData, false, false, none, wm⟩
    ∧ RunOutcome.statusCode .noNewData = 200
    ∧ RunOutcome.noNewData ≠ RunOutcome.uploadError :=
  ⟨lambda_handler_empty cfg wm oc subs s3Ok h, rfl, by decide⟩

theorem zero_accepted_no_write_witness :
    lambda_handler cfgBase (some 10) noBedrock [("stocks", [postB])] true
      = ⟨.noNewData, false, false, none, some 10⟩ :=
  (zero_accepted_no_write cfgBase (some 10) noBedrock [("stocks", [postB])] true (by decide)).1

/-- C3: when the object-store write of a non-empty batch fails, the
persisted watermark is left unchanged (the advance is sequenced strictly
after a successful persist) and the run surfaces the failure outcome
(status 500) to the caller. -/
theorem upload_failure_preserves_watermark (cfg : Cfg) (wm : Option ℚ)
    (oc : Post → Nat → BedrockResult) (subs : List (String × List Post))
    (h : (scanSubs cfg wm oc subs ⟨[], 0⟩).processed ≠ []) :
    (lambda_handler cfg wm oc subs false).watermarkAfter = wm
    ∧ (lambda_handler cfg wm oc subs false).outcome = .uploadError
    ∧ (lambda_handler cfg wm oc subs false).persisted = false
    ∧ RunOutcome.statusCode .uploadError = 500 := by
  rw [lambda_handler_uploadFail cfg wm oc subs h]
  exact ⟨rfl, rfl, rfl, rfl⟩

theorem upload_failure_preserves_watermark_witness :
    (lambda_handler cfgBase (some 10) noBedrock [("stocks", [postA])] false).watermarkAfter
        = some 10
    ∧ (lambda_handler cfgBase (some 10) noBedrock [("stocks", [postA])] false).outcome
        = .uploadError := by
  obtain ⟨h1, h2, -, -⟩ :=
    upload_failure_preserves_watermark cfgBase (some 10) noBedrock
      [("stocks", [postA])] (by decide)
  exact ⟨h1, h2⟩

/-- One run's external inputs, for stating cross-run properties. -/
structure RunInput where
  cfg : Cfg
  outcomes : Post → Nat → BedrockResult
  subs : List (String × List Post)
  s3Ok : Bool

/-- The watermark persisted after one run starting from watermark `wm`. -/
def runWatermark (wm : Option ℚ) (i : RunInput) : Option ℚ :=
  (lambda_handler i.cfg wm i.outcomes i.subs i.s3Ok).watermarkAfter

/-- The watermark persisted after a sequence of runs. -/
def runSeqWatermark (wm0 : Option ℚ) (runs : List RunInput) : Option ℚ :=
  runs.foldl runWatermark wm0

/-- C6: across any sequence of runs the persisted watermark is
monotonically non-decreasing — after one more run it is at least its
previous value — and a run that accepts zero items leaves it exactly
unchanged. -/
theorem watermark_monotone_across_runs (wm0 : Option ℚ) (runs : List RunInput)
    (i : RunInput) :
    (∀ w, runSeqWatermark wm0 runs = some w →
      ∃ w', runSeqWatermark wm0 (runs ++ [i]) = some w' ∧ w ≤ w')
    ∧ ((scanSubs i.cfg (runSeqWatermark wm0 runs) i.outcomes i.subs ⟨[], 0⟩).processed = [] →
      runSeqWatermark wm0 (runs ++ [i]) = runSeqWatermark wm0 runs) := by
  have hfold : runSeqWatermark wm0 (runs ++ [i])
      = runWatermark (runSeqWatermark wm0 runs) i := by
    unfold runSeqWatermark
    rw [List.foldl_append]
    rfl
  constructor
  · intro w hw
    rw [hfold]
    exact run_watermark_mono i.cfg _ i.outcomes i.subs i.s3Ok w hw
  · intro h
    rw [hfold]
    unfold runWatermark
    rw [lambda_handler_empty _ _ _ _ _ h]

/-- Fixture: one full run input accepting `postA` and observing the
newer keyword-rejected `postB`. -/
def runInput1 : RunInput := ⟨cfgBase, noBedrock, [("stocks", [postA, postB])], true⟩

theorem watermark_monotone_across_runs_witness :
    runSeqWatermark (some 10) ([] ++ [runInput1]) = some 30 ∧ (10 : ℚ) ≤ 30 := by
  obtain ⟨w', hw', hle⟩ := (watermark_monotone_across_runs (some 10) [] runInput1).1 10 rfl
  have h30 : runSeqWatermark (some 10) ([] ++ [runInput1]) = some 30 := by decide
  rw [h30] at hw'
  exact ⟨h30, (Option.some.inj hw') ▸ hle⟩

/-- C1 counterexample: a successful run that accepts exactly one post
(`postA`, created at 20) while also examining the newer keyword-rejected
`postB` (created at 30) persists watermark 30 — the maximum timestamp
observed past the watermark stage — and not the accepted post's 20. -/
theorem watermark_not_max_accepted_cex :
    (lambda_handler cfgBase (some 10) noBedrock [("stocks", [postA, postB])] true).batch
        = some ⟨1, [sanitize_post_data (rawPostItem "stocks" postA)]⟩
    ∧ postA.created_utc = 20
    ∧ (lambda_handler cfgBase (some 10) noBedrock [("stocks", [postA, postB])] true).watermarkAfter
        = some 30
    ∧ (30 : ℚ) ≠ 20 :=
  ⟨by decide, rfl, by decide, by decide⟩

/-- C1 amended: a successful run that accepts at least one item (with
positive timestamps) advances the watermark to the maximum `createdAt`
observed among the posts that passed the watermark stage — accepted or
not — which is an upper bound for every accepted post's `createdAt` and
at least the previous watermark; it equals the accepted maximum only
when no newer rejected post was examined. -/
theorem watermark_advances_to_max_observed (cfg : Cfg) (wm : Option ℚ)
    (oc : Post → Nat → BedrockResult) (subs : List (String × List Post)) (n : Nat)
    (hpos : ∀ sp ∈ subs, ∀ p ∈ sp.2, 0 < p.created_utc)
    (hs : (lambda_handler cfg wm oc subs true).outcome = .processedOk n) :
    (lambda_handler cfg wm oc subs true).watermarkAfter
        = some (scanSubs cfg wm oc subs ⟨[], 0⟩).newest
    ∧ (∀ bt, (lambda_handler cfg wm oc subs true).batch = some bt →
        ∀ b ∈ bt.data, postItemLE (scanSubs cfg wm oc subs ⟨[], 0⟩).newest b)
    ∧ (∀ w, wm = some w → w ≤ (scanSubs cfg wm oc subs ⟨[], 0⟩).newest) := by
  by_cases hemp : (scanSubs cfg wm oc subs ⟨[], 0⟩).processed = []
  · rw [lambda_handler_empty cfg wm oc subs true hemp] at hs
    simp at hs
  · have h0 : 0 < (scanSubs cfg wm oc subs ⟨[], 0⟩).newest := by
      have hlb := scanSubs_lb (fun x => 0 < x) (fun x y hxy hx => lt_of_lt_of_le hx hxy)
        cfg wm oc subs ⟨[], 0⟩ (fun sp hsp p hp _ => hpos sp hsp p hp) (Or.inl rfl)
      rcases hlb with h | h
      · exact absurd h hemp
      · exact h
    rw [lambda_handler_success cfg wm oc subs hemp]
    refine ⟨by dsimp only; rw [if_pos h0], ?_, ?_⟩
    · intro bt hbt b hb
      dsimp only at hbt
      injection hbt with hbt'
      subst hbt'
      exact scanSubs_items_le cfg wm oc subs ⟨[], 0⟩ (fun b hb0 => absurd hb0 (by simp)) b hb
    · intro w hwm
      subst hwm
      exact scanSubs_newest_ge_wm cfg w oc subs hemp

theorem watermark_advances_to_max_observed_witness :
    (lambda_handler cfgBase (some 10) noBedrock [("stocks", [postA, postB])] true).watermarkAfter
      = some (scanSubs cfgBase (some 10) noBedrock
          [("stocks", [postA, postB])] ⟨[], 0⟩).newest :=
  (watermark_advances_to_max_observed cfgBase (some 10) noBedrock
    [("stocks", [postA, postB])] 1 (by decide) (by decide)).1

theorem watermark_stage_strict_witness :
    (processPost cfgBase (some 10) (fun _ => .emptyContent) "stocks" postC).passedWatermark
      = true := by
  have h := (watermark_stage_strict cfgBase (some 10) (fun _ => .emptyContent) "stocks" postC).1
  cases hp : (processPost cfgBase (some 10) (fun _ => .emptyContent) "stocks" postC).passedWatermark
  · obtain ⟨-, hlt⟩ := h.mp hp
    exact absurd hlt (by decide)
  · rfl
